import Mathlib

/-!
# Verification of the banking-system core against its specification

Shallow embedding of the C++ sources of the networked banking system
(request parsing and serialization, the finance server's request handler,
the signal/timeout helpers, the client's retry loop and menu loop),
together with theorems settling the specification's claims.

Modelling conventions:
* C++ `std::string` values travelling on the wire are `List Char`.
* C++ `int` is `Int`; where overflow matters (`std::stoi`) the int range
  is checked explicitly.
* C++ `double` is modelled as `ℚ` with exact arithmetic; decimal text
  parsing (`std::stod`) produces the exact rational denoted by the text.
* C++ exceptions are modelled as `Option`/`Except` failures: `none`
  (resp. `.error`) means the C++ code throws.
-/

namespace BankSpec

/-! ## Data model (`common.h`) -/

/-- `enum RequestType` from `common.h`, ordinals 0..8 in declaration order. -/
inductive RequestType where
  | QUIT
  | DEPOSIT
  | WITHDRAW
  | BALANCE
  | UPLOAD_FILE
  | DOWNLOAD_FILE
  | LOGIN
  | LOGOUT
  | EARN_INTEREST
deriving DecidableEq

/-- The integer ordinal of a `RequestType`, as produced by
`static_cast<int>(req.type)` in `send_request`. -/
def RequestType.toOrdinal : RequestType → Int
  | .QUIT => 0
  | .DEPOSIT => 1
  | .WITHDRAW => 2
  | .BALANCE => 3
  | .UPLOAD_FILE => 4
  | .DOWNLOAD_FILE => 5
  | .LOGIN => 6
  | .LOGOUT => 7
  | .EARN_INTEREST => 8

/-- `static_cast<RequestType>(type)` for `type` in 0..8 (the only values it
is applied to in `Request::parseRequest`, which guards `0 <= type <= 8`).
Out-of-range arguments (never reached) map to `QUIT`. -/
def RequestType.ofOrdinal (n : Int) : RequestType :=
  if n = 1 then .DEPOSIT
  else if n = 2 then .WITHDRAW
  else if n = 3 then .BALANCE
  else if n = 4 then .UPLOAD_FILE
  else if n = 5 then .DOWNLOAD_FILE
  else if n = 6 then .LOGIN
  else if n = 7 then .LOGOUT
  else if n = 8 then .EARN_INTEREST
  else .QUIT

/-- `struct Request` from `common.h`: `type`, `user_id : int`,
`amount : double`, `filename`, `data`. -/
structure Request where
  type : RequestType
  user_id : Int
  amount : ℚ
  filename : List Char
  data : List Char
deriving DecidableEq

/-- `Request(QUIT)` with the constructor's default arguments
(`uid = 0`, `amt = 0.0`, empty `fname` and `d`): the sentinel returned by
`Request::parseRequest` on malformed input. -/
def sentinelQuit : Request := ⟨.QUIT, 0, 0, [], []⟩

/-- `struct Response` from `common.h`: `success`, `balance : double`,
`data`, `message`.  The default constructor gives
`(false, 0.0, "", "")`. -/
structure Response where
  success : Bool
  balance : ℚ
  data : String
  message : String
deriving DecidableEq

/-! ## Text-to-number conversions (`std::stoi` / `std::stod`)

`Request::parseRequest` calls `std::stoi` and `std::stod`; both follow
`strtol`/`strtod`: skip leading whitespace, take an optional sign, then a
maximal numeric prefix; throw `std::invalid_argument` when no digits are
consumed, and `std::stoi` throws `std::out_of_range` when the value does
not fit in `int`.  A thrown exception is modelled as `none`.
`std::stod` is modelled on its decimal forms (integer part, optional
fraction, optional decimal exponent); its result is the exact rational
denoted by the text. -/

/-- The six `isspace` characters skipped by `strtol`/`strtod`. -/
def isSpaceChar (c : Char) : Bool :=
  c = ' ' || c = '\t' || c = '\n' || c = '\r' ||
  c = Char.ofNat 11 || c = Char.ofNat 12

/-- Numeric value of a decimal digit character. -/
def digitVal (c : Char) : Nat := c.toNat - 48

/-- Value of a big-endian string of decimal digit characters. -/
def natOfDigits (l : List Char) : Nat :=
  l.foldl (fun a c => 10 * a + digitVal c) 0

/-- Optional leading sign, as consumed by `strtol`/`strtod`:
returns (negative?, rest). -/
def signSplit (l : List Char) : Bool × List Char :=
  match l with
  | [] => (false, [])
  | c :: r =>
    if c = '-' then (true, r)
    else if c = '+' then (false, r)
    else (false, c :: r)

def INT_MAX : Int := 2147483647
def INT_MIN : Int := -2147483648

/-- Model of `std::stoi` (base 10): `none` models a thrown
`std::invalid_argument` (no digits) or `std::out_of_range`
(value outside `int`). Trailing non-digit characters are ignored. -/
def stoi (s : List Char) : Option Int :=
  let s1 := s.dropWhile isSpaceChar
  let p := signSplit s1
  let ds := p.2.takeWhile Char.isDigit
  if ds.isEmpty then none
  else
    let v : Int := (natOfDigits ds : Nat)
    let v := if p.1 then -v else v
    if v < INT_MIN ∨ INT_MAX < v then none else some v

/-- Decimal exponent suffix of a floating literal (`e`/`E`, optional sign,
digits); `0` when absent or when no digits follow the `e`, matching
`strtod`, which then does not consume the exponent. -/
def expPart (s : List Char) : Int :=
  match s with
  | c :: r =>
    if c = 'e' ∨ c = 'E' then
      let p := signSplit r
      let ds := p.2.takeWhile Char.isDigit
      if ds.isEmpty then 0
      else if p.1 then -(natOfDigits ds : Int) else (natOfDigits ds : Int)
    else 0
  | [] => 0

/-- Model of `std::stod` on decimal forms: sign, integer digits, optional
`.` and fraction digits, optional exponent; `none` models the
`std::invalid_argument` thrown when no mantissa digit is consumed.  The
result is the exact rational denoted by the text (double rounding and
overflow to `HUGE_VAL` are abstracted away: doubles are exact `ℚ` here). -/
def stod (s : List Char) : Option ℚ :=
  let s1 := s.dropWhile isSpaceChar
  let p := signSplit s1
  let ip := p.2.takeWhile Char.isDigit
  let s2 := p.2.dropWhile Char.isDigit
  let fr : List Char × List Char :=
    match s2 with
    | '.' :: r => (r.takeWhile Char.isDigit, r.dropWhile Char.isDigit)
    | _ => ([], s2)
  if ip.isEmpty ∧ fr.1.isEmpty then none
  else
    -- the denoted value is sign * (I.F) * 10^E; with I the integer digits,
    -- F the fraction digits of length fl and E the exponent this is
    -- sign * (natOfDigits I * 10^fl + natOfDigits F) * 10^(E - fl),
    -- assembled here through a single exact rational construction
    let mantNum : Int := (natOfDigits ip * 10 ^ fr.1.length + natOfDigits fr.1 : Nat)
    let num : Int := if p.1 then -mantNum else mantNum
    let e : Int := expPart fr.2 - (fr.1.length : Int)
    some (if 0 ≤ e then mkRat (num * (10 : Int) ^ e.toNat) 1
          else mkRat num ((10 : Nat) ^ (-e).toNat))

/-! ## `Request::parseRequest` (`common.cpp`) -/

/-- The delimiter split performed by `Request::parseRequest`: repeatedly
find `"|"`, push the prefix, erase through the delimiter; finally push the
remainder.  Splitting the empty string yields `[[]]`, one empty field. -/
def splitDelim : List Char → List (List Char)
  | [] => [[]]
  | c :: rest =>
    if c = '|' then [] :: splitDelim rest
    else
      match splitDelim rest with
      | [] => [[c]]
      | p :: ps => (c :: p) :: ps

/-- `Request::parseRequest` from `common.cpp`.  Splits on `|`; fewer than
5 fields, or a kind ordinal outside 0..8, give the sentinel `QUIT`
request; `none` models an exception escaping from `std::stoi`/`std::stod`
on the kind, user-id or amount field. -/
def parseRequest (buffer : List Char) : Option Request :=
  let parts := splitDelim buffer
  if parts.length < 5 then some sentinelQuit
  else
    match stoi (parts.getD 0 []) with
    | none => none
    | some ty =>
      if ty < 0 ∨ ty > 8 then some sentinelQuit
      else
        match stoi (parts.getD 1 []) with
        | none => none
        | some uid =>
          match stod (parts.getD 2 []) with
          | none => none
          | some amt =>
            some ⟨RequestType.ofOrdinal ty, uid, amt, parts.getD 3 [], parts.getD 4 []⟩

/-! ## Request serialization (`NetworkRequestChannel::send_request`)

`send_request` renders the body with
`ss << (int)type << "|" << user_id << "|" << amount << "|" << filename
<< "|" << data`.  Integer rendering (`operator<<(int)`) is modelled
exactly; the default iostream rendering of the `double` amount (6
significant digits, fixed or scientific) is kept abstract: the theorems
take the rendered amount text as a parameter. -/

/-- Decimal digit characters of a positive natural number, most
significant first; `fuel ≥ n` makes the recursion structural. -/
def natCharsAux : Nat → Nat → List Char
  | 0, _ => []
  | fuel + 1, n =>
    if n = 0 then []
    else natCharsAux fuel (n / 10) ++ [Nat.digitChar (n % 10)]

/-- Decimal digit characters of a natural number, most significant first,
as printed by `operator<<`. -/
def natChars (n : Nat) : List Char :=
  if n = 0 then ['0'] else natCharsAux n n

/-- `operator<<(int)`: minus sign for negatives, then decimal digits. -/
def intChars (n : Int) : List Char :=
  if n < 0 then '-' :: natChars n.natAbs else natChars n.toNat

/-- Body built by `send_request` for request `r`, with `amountStr` standing
for the iostream rendering of `r.amount`
(format `TYPE|USER_ID|AMOUNT|FILENAME|DATA`). -/
def serializeRequestWith (amountStr : List Char) (r : Request) : List Char :=
  intChars r.type.toOrdinal ++ '|' ::
    (intChars r.user_id ++ '|' :: (amountStr ++ '|' :: (r.filename ++ '|' :: r.data)))

example : splitDelim ['a', '|', 'b'] = [['a'], ['b']] := by decide
example : splitDelim [] = [[]] := by decide
example : stoi ['4', '2'] = some 42 := by decide
example : stoi ['-', '7'] = some (-7) := by decide
example : stoi ['x'] = none := by decide
example : stoi ['9','9','9','9','9','9','9','9','9','9','9'] = none := by decide
example : stod ['5', '0'] = some 50 := by decide
example : stod ['1', '.', '5'] = some (mkRat 3 2) := by decide
example : stod ['-', '2', '.', '5', 'e', '1'] = some (-25) := by decide
example : stod ['x'] = none := by decide
example : parseRequest "1|7|50|f|d".data =
    some ⟨.DEPOSIT, 7, 50, ['f'], ['d']⟩ := by decide
example : parseRequest "1|2".data = some sentinelQuit := by decide
example : parseRequest "9|x|y|f|d".data = some sentinelQuit := by decide
example : parseRequest "1|x|0|f|d".data = none := by decide
example : serializeRequestWith ['5','0'] ⟨.DEPOSIT, 7, 50, ['f'], ['d']⟩ =
    "1|7|50|f|d".data := by decide

/-! ## Facts about decimal digit printing and parsing -/

theorem digitChar_facts (d : Nat) (hd : d < 10) :
    digitVal (Nat.digitChar d) = d ∧ (Nat.digitChar d).isDigit = true ∧
    isSpaceChar (Nat.digitChar d) = false ∧ Nat.digitChar d ≠ '|' ∧
    Nat.digitChar d ≠ '-' ∧ Nat.digitChar d ≠ '+' := by
  interval_cases d <;> exact ⟨rfl, rfl, rfl, by decide, by decide, by decide⟩

/-- The character-level facts needed about every character of a printed
number: it is a decimal digit, hence not whitespace, not the delimiter and
not a sign. -/
def GoodDigit (c : Char) : Prop :=
  c.isDigit = true ∧ isSpaceChar c = false ∧ c ≠ '|' ∧ c ≠ '-' ∧ c ≠ '+'

theorem goodDigit_digitChar (d : Nat) (hd : d < 10) :
    GoodDigit (Nat.digitChar d) := by
  obtain ⟨-, h2, h3, h4, h5, h6⟩ := digitChar_facts d hd
  exact ⟨h2, h3, h4, h5, h6⟩

theorem natCharsAux_good : ∀ fuel n : Nat, ∀ c ∈ natCharsAux fuel n, GoodDigit c := by
  intro fuel
  induction fuel with
  | zero => intro n c hc; simp [natCharsAux] at hc
  | succ f ih =>
    intro n c hc
    by_cases hn : n = 0
    · simp [natCharsAux, hn] at hc
    · simp only [natCharsAux, if_neg hn, List.mem_append, List.mem_singleton] at hc
      rcases hc with hc | hc
      · exact ih _ c hc
      · subst hc; exact goodDigit_digitChar _ (Nat.mod_lt n (by norm_num))

theorem natChars_good (n : Nat) : ∀ c ∈ natChars n, GoodDigit c := by
  intro c hc
  unfold natChars at hc
  by_cases hn : n = 0
  · simp [hn] at hc; subst hc; exact goodDigit_digitChar 0 (by norm_num)
  · rw [if_neg hn] at hc; exact natCharsAux_good n n c hc

theorem natCharsAux_ne_nil (fuel n : Nat) (h0 : 0 < n) (hf : 0 < fuel) :
    natCharsAux fuel n ≠ [] := by
  cases fuel with
  | zero => omega
  | succ f =>
    simp only [natCharsAux, if_neg (Nat.pos_iff_ne_zero.mp h0)]
    simp

theorem natChars_ne_nil (n : Nat) : natChars n ≠ [] := by
  unfold natChars
  by_cases hn : n = 0
  · simp [hn]
  · rw [if_neg hn]; exact natCharsAux_ne_nil n n (by omega) (by omega)

theorem natOfDigits_concat (l : List Char) (c : Char) :
    natOfDigits (l ++ [c]) = 10 * natOfDigits l + digitVal c := by
  simp [natOfDigits, List.foldl_append]

theorem natOfDigits_natCharsAux : ∀ fuel n : Nat, n ≤ fuel →
    natOfDigits (natCharsAux fuel n) = n := by
  intro fuel
  induction fuel with
  | zero =>
    intro n hn
    interval_cases n
    rfl
  | succ f ih =>
    intro n hn
    by_cases h0 : n = 0
    · subst h0; rfl
    · rw [natCharsAux, if_neg h0, natOfDigits_concat]
      have hdiv : n / 10 ≤ f := by
        have := Nat.div_lt_self (Nat.pos_of_ne_zero h0) (by norm_num : 1 < 10)
        omega
      rw [ih (n / 10) hdiv, (digitChar_facts (n % 10) (Nat.mod_lt n (by norm_num))).1]
      omega

theorem natOfDigits_natChars (n : Nat) : natOfDigits (natChars n) = n := by
  unfold natChars
  by_cases hn : n = 0
  · simp [hn]; rfl
  · rw [if_neg hn]; exact natOfDigits_natCharsAux n n le_rfl

/-! ## `std::stoi` applied to a printed `int` -/

theorem dropWhile_cons_of_false {p : Char → Bool} {c : Char} {l : List Char}
    (h : p c = false) : (c :: l).dropWhile p = c :: l := by
  simp [List.dropWhile, h]

theorem takeWhile_all {p : Char → Bool} : ∀ {l : List Char},
    (∀ c ∈ l, p c = true) → l.takeWhile p = l := by
  intro l
  induction l with
  | nil => intro _; rfl
  | cons c r ih =>
    intro h
    rw [List.takeWhile_cons, h c (by simp)]
    simp [ih fun x hx => h x (by simp [hx])]

theorem signSplit_of_digit {c : Char} {l : List Char} (h : GoodDigit c) :
    signSplit (c :: l) = (false, c :: l) := by
  simp [signSplit, h.2.2.2.1, h.2.2.2.2]

theorem stoi_natChars (n : Nat) (hmax : (n : Int) ≤ INT_MAX) :
    stoi (natChars n) = some (n : Int) := by
  obtain ⟨c, l, hcl⟩ := List.exists_cons_of_ne_nil (natChars_ne_nil n)
  have hgoods : ∀ x ∈ c :: l, GoodDigit x := by rw [← hcl]; exact natChars_good n
  have hgc : GoodDigit c := hgoods c (by simp)
  have htake : (c :: l).takeWhile Char.isDigit = c :: l :=
    takeWhile_all fun x hx => (hgoods x hx).1
  have hval : natOfDigits (c :: l) = n := by rw [← hcl]; exact natOfDigits_natChars n
  have hrange : ¬ ((n : Int) < INT_MIN ∨ INT_MAX < (n : Int)) := by
    simp only [INT_MIN, INT_MAX] at *
    omega
  simp only [hcl, stoi, dropWhile_cons_of_false hgc.2.1, signSplit_of_digit hgc,
    htake, hval, List.isEmpty_cons, Bool.false_eq_true, if_false]
  rw [if_neg hrange]

theorem stoi_intChars (n : Int) (hmin : INT_MIN ≤ n) (hmax : n ≤ INT_MAX) :
    stoi (intChars n) = some n := by
  by_cases hneg : n < 0
  · obtain ⟨c, l, hcl⟩ := List.exists_cons_of_ne_nil (natChars_ne_nil n.natAbs)
    have hgoods : ∀ x ∈ c :: l, GoodDigit x := by
      rw [← hcl]; exact natChars_good n.natAbs
    have htake : (c :: l).takeWhile Char.isDigit = c :: l :=
      takeWhile_all fun x hx => (hgoods x hx).1
    have hval : natOfDigits (c :: l) = n.natAbs := by
      rw [← hcl]; exact natOfDigits_natChars _
    have hsign : signSplit ('-' :: c :: l) = (true, c :: l) := by simp [signSplit]
    have hrange : ¬ (-(n.natAbs : Int) < INT_MIN ∨ INT_MAX < -(n.natAbs : Int)) := by
      simp only [INT_MIN, INT_MAX] at *
      omega
    simp only [intChars, if_pos hneg, hcl, stoi,
      dropWhile_cons_of_false (show isSpaceChar '-' = false by decide),
      hsign, htake, hval, List.isEmpty_cons, Bool.false_eq_true, if_false, if_true]
    rw [if_neg hrange]
    have : -(n.natAbs : Int) = n := by omega
    rw [this]
  · push_neg at hneg
    simp only [intChars, if_neg (by omega : ¬ n < 0)]
    rw [stoi_natChars n.toNat (by simp only [INT_MAX] at *; omega)]
    rw [Int.toNat_of_nonneg hneg]

theorem intChars_good (n : Int) : ∀ c ∈ intChars n, c = '-' ∨ GoodDigit c := by
  intro c hc
  unfold intChars at hc
  by_cases hneg : n < 0
  · rw [if_pos hneg] at hc
    rcases List.mem_cons.mp hc with hc | hc
    · exact Or.inl hc
    · exact Or.inr (natChars_good _ c hc)
  · rw [if_neg hneg] at hc
    exact Or.inr (natChars_good _ c hc)

theorem bar_not_mem_intChars (n : Int) : '|' ∉ intChars n := by
  intro hmem
  rcases intChars_good n '|' hmem with h | h
  · exact absurd h (by decide)
  · exact absurd h.2.2.1 (by simp)

/-! ## Splitting lemmas -/

theorem splitDelim_no_delim : ∀ l : List Char, '|' ∉ l → splitDelim l = [l] := by
  intro l
  induction l with
  | nil => intro _; rfl
  | cons c r ih =>
    intro h
    have hc : c ≠ '|' := fun hc => h (by simp [hc])
    rw [splitDelim, if_neg hc, ih fun hr => h (by simp [hr])]

theorem splitDelim_append : ∀ l rest : List Char, '|' ∉ l →
    splitDelim (l ++ '|' :: rest) = l :: splitDelim rest := by
  intro l
  induction l with
  | nil =>
    intro rest _
    simp [splitDelim]
  | cons c r ih =>
    intro rest h
    have hc : c ≠ '|' := fun hc => h (by simp [hc])
    rw [List.cons_append, splitDelim, if_neg hc, ih rest fun hr => h (by simp [hr])]

/-! ## RequestType ordinal facts -/

theorem toOrdinal_bounds (t : RequestType) :
    0 ≤ t.toOrdinal ∧ t.toOrdinal ≤ 8 := by
  cases t <;> exact ⟨by decide, by decide⟩

theorem ofOrdinal_toOrdinal (t : RequestType) :
    RequestType.ofOrdinal t.toOrdinal = t := by
  cases t <;> rfl

/-! ## Claims C1, C2, C10: parsing and the round trip -/

/-- C1, counterexample: the claim quantifies over every body that does not
split into exactly 5 fields, but a body with six fields
(`"1|2|3|f|d|e"`) is parsed as an ordinary `DEPOSIT` request, not as the
sentinel `Quit` request. -/
theorem claim_C1_counterexample :
    (splitDelim "1|2|3|f|d|e".data).length ≠ 5 ∧
    parseRequest "1|2|3|f|d|e".data ≠ some sentinelQuit := by
  constructor
  · decide
  · decide

/-- C1 (amended): for every request body that splits into fewer than 5
delimiter-separated fields, and for every body of at least 5 fields whose
kind field parses under `std::stoi` to an integer outside 0..8,
`Request::parseRequest` returns the sentinel `Quit` request with default
fields (`user_id 0`, `amount 0`, empty filename and data) rather than
raising a decode fault. -/
theorem claim_C1 :
    (∀ buffer : List Char, (splitDelim buffer).length < 5 →
      parseRequest buffer = some sentinelQuit) ∧
    (∀ buffer : List Char, ∀ k : Int, ¬ (splitDelim buffer).length < 5 →
      stoi ((splitDelim buffer).getD 0 []) = some k → (k < 0 ∨ k > 8) →
      parseRequest buffer = some sentinelQuit) := by
  constructor
  · intro buffer h
    simp only [parseRequest]
    rw [if_pos h]
  · intro buffer k hlen hk hrange
    simp only [parseRequest]
    rw [if_neg hlen, hk]
    dsimp only
    rw [if_pos hrange]

/-- C1, witness: the amended theorem applied at the concrete bodies
`"1|2"` (two fields) and `"9|x|y|f|d"` (kind ordinal 9). -/
theorem claim_C1_witness :
    ((splitDelim "1|2".data).length < 5 ∧
      parseRequest "1|2".data = some sentinelQuit) ∧
    (¬ (splitDelim "9|x|y|f|d".data).length < 5 ∧
      stoi ((splitDelim "9|x|y|f|d".data).getD 0 []) = some 9 ∧
      ((9 : Int) < 0 ∨ (9 : Int) > 8) ∧
      parseRequest "9|x|y|f|d".data = some sentinelQuit) :=
  ⟨⟨by decide, claim_C1.1 _ (by decide)⟩,
   ⟨by decide, by decide, by decide,
    claim_C1.2 _ 9 (by decide) (by decide) (by decide)⟩⟩

/-- C2, counterexample: the round trip fails on a `Request` whose payload
contains the reserved delimiter.  `Request(QUIT, 0, 0.0, "", "a|b")`
serializes (with the amount rendered as `"0"`, exactly as `operator<<`
prints `0.0`) to `"0|0|0||a|b"`, which decodes to a request whose data is
`"a"`, not `"a|b"`. -/
theorem claim_C2_counterexample :
    parseRequest (serializeRequestWith ['0'] ⟨.QUIT, 0, 0, [], ['a', '|', 'b']⟩) =
      some ⟨.QUIT, 0, 0, [], ['a']⟩ ∧
    parseRequest (serializeRequestWith ['0'] ⟨.QUIT, 0, 0, [], ['a', '|', 'b']⟩) ≠
      some ⟨.QUIT, 0, 0, [], ['a', '|', 'b']⟩ := by
  constructor
  · decide
  · decide

/-- C2 (amended): for every `Request` whose filename and data contain no
delimiter character, and whose amount renders to a delimiter-free decimal
text that `std::stod` reads back as the same value (the claim's "within
float precision"), serializing the request to the wire body built by
`send_request` and decoding it with `Request::parseRequest` reproduces the
request exactly: same kind, user id, amount, filename and data. -/
theorem claim_C2 (r : Request) (amountStr : List Char)
    (hlo : INT_MIN ≤ r.user_id) (hhi : r.user_id ≤ INT_MAX)
    (hamt : stod amountStr = some r.amount)
    (hbar : '|' ∉ amountStr) (hfn : '|' ∉ r.filename) (hdt : '|' ∉ r.data) :
    parseRequest (serializeRequestWith amountStr r) = some r := by
  obtain ⟨t, uid, amt, fn, dt⟩ := r
  simp only at hamt hfn hdt hlo hhi
  have hsplit : splitDelim (serializeRequestWith amountStr ⟨t, uid, amt, fn, dt⟩) =
      [intChars t.toOrdinal, intChars uid, amountStr, fn, dt] := by
    simp only [serializeRequestWith]
    rw [splitDelim_append _ _ (bar_not_mem_intChars _),
      splitDelim_append _ _ (bar_not_mem_intChars _),
      splitDelim_append _ _ hbar,
      splitDelim_append _ _ hfn,
      splitDelim_no_delim _ hdt]
  have hbounds := toOrdinal_bounds t
  have hty : stoi (intChars t.toOrdinal) = some t.toOrdinal :=
    stoi_intChars _ (by simp only [INT_MIN]; omega) (by simp only [INT_MAX]; omega)
  simp only [parseRequest, hsplit]
  rw [if_neg (by simp)]
  simp only [List.getD_cons_zero, List.getD_cons_succ]
  rw [hty]
  dsimp only
  rw [if_neg (by omega)]
  rw [stoi_intChars uid hlo hhi]
  dsimp only
  rw [hamt]
  dsimp only
  rw [ofOrdinal_toOrdinal]

/-- C2, witness: the amended round trip applied to the concrete request
`Deposit(user 7, amount 50, filename "f", data "d")` with the amount
rendered as `"50"`. -/
theorem claim_C2_witness :
    parseRequest (serializeRequestWith ['5', '0'] ⟨.DEPOSIT, 7, 50, ['f'], ['d']⟩) =
      some ⟨.DEPOSIT, 7, 50, ['f'], ['d']⟩ :=
  claim_C2 ⟨.DEPOSIT, 7, 50, ['f'], ['d']⟩ ['5', '0'] (by decide) (by decide)
    (by decide) (by decide) (by decide) (by decide)

/-- C10: `Request::parseRequest` is not total on bodies of at least five
fields: a non-numeric kind, user-id or amount field makes
`std::stoi`/`std::stod` throw (modelled as `none`), so decoding fails
outright; the sentinel-`Quit` fallback covers only the too-few-fields and
the numeric-but-out-of-range-kind cases. -/
theorem claim_C10 :
    parseRequest "x|1|0|f|d".data = none ∧
    parseRequest "1|x|0|f|d".data = none ∧
    parseRequest "1|1|x|f|d".data = none ∧
    parseRequest "1|2".data = some sentinelQuit ∧
    parseRequest "9|one|two|f|d".data = some sentinelQuit := by
  refine ⟨by decide, by decide, by decide, by decide, by decide⟩

/-! ## Finance server (`finance.cpp`) -/

/-- `class Account` from `finance.cpp`: id, balance, active flag.  The
per-account mutex serializes concurrent access in the C++ code and has no
counterpart in this sequential model. -/
structure Account where
  id : Int
  balance : ℚ
  active : Bool
deriving DecidableEq

/-- `Account()`: the default-constructed array element
(`id = -1`, `balance = 0.0`, `active = false`). -/
def Account.default : Account := ⟨-1, 0, false⟩

/-- `Account::initialize(_id)`: reset to a fresh active account with zero
balance. -/
def Account.initAccount (uid : Int) : Account := ⟨uid, 0, true⟩

/-- `applyInterest` from `finance.cpp`: an inactive account is left alone;
a strictly positive balance is multiplied by the growth factor 1.01
(exact here because doubles are modelled as `ℚ`). -/
def applyInterest (a : Account) : Account :=
  if a.active = false then a
  else if 0 < a.balance then { a with balance := a.balance * mkRat 101 100 }
  else a

/-- The finance server's account array (`Account* accounts`, length
`max_accounts`). -/
structure ServerState where
  accounts : List Account
deriving DecidableEq

/-- The C++ `double` → `int` conversion (truncation toward zero) applied
to a rational: `Int.tdiv` truncates the exact quotient toward zero, which
is precisely the C++ conversion (overflow of the `int`, undefined in C++,
is not modelled; the only uses here are small thread counts). -/
def cppToInt (q : ℚ) : Int := q.num.tdiv (q.den : Int)

/-- One iteration of the request dispatch of `handle_client`
(`finance.cpp`): `some (st', resp)` is the next account-array state and
the `Response` sent back; `none` means no response is ever sent on this
connection.

The `EARN_INTEREST` branch computes
`int numThreads = thread_count; if (r.amount > 0) numThreads = r.amount;`
(truncating `double` → `int`), creates `ThreadPool pool(numThreads)`,
enqueues one `applyInterest` task per account and leaves the scope —
running `~ThreadPool`, which waits for the queue to drain — before the
response is sent.  Faithful outcomes:
* `numThreads ≥ 1`: the pool drains, every task runs exactly once, and
  the drained effect is the pointwise `applyInterest` map; the thread
  count beyond that only affects scheduling.
* `numThreads = 0` with at least one account slot: the pool has no
  workers, the enqueued tasks are never popped, and the destructor's
  `condition.wait(tasks.empty() && activeTasks == 0)` blocks forever —
  no accrual is applied and no response is ever sent (`none`).
* `numThreads < 0`: the `size_t` constructor parameter wraps to ≈2^64,
  and the construction loop either never completes or throws once thread
  creation fails, destroying joinable `std::thread` members and calling
  `std::terminate` — again no response (`none`); the `catch` in
  `handle_client` cannot run.
The `catch` branch (`"Interest accrual failed"`) is reachable in C++ only
through allocation failure in `enqueue`/construction with ≥ 1 worker,
which this model (unbounded memory) idealizes away. -/
def processRequest (st : ServerState) (threadCount : Int) (r : Request) :
    Option (ServerState × Response) :=
  if r.type = .QUIT then
    some (st, ⟨true, 0, "", "Server acknowledged disconnect"⟩)
  else if r.user_id < 0 ∨ (st.accounts.length : Int) ≤ r.user_id then
    some (st, ⟨false, 0, "", "Invalid account ID"⟩)
  else
    let idx := r.user_id.toNat
    let accounts1 :=
      if (st.accounts.getD idx Account.default).active = false then
        st.accounts.set idx (Account.initAccount r.user_id)
      else st.accounts
    let acc := accounts1.getD idx Account.default
    match r.type with
    | .DEPOSIT =>
      some (⟨accounts1.set idx { acc with balance := acc.balance + r.amount }⟩,
        ⟨true, acc.balance + r.amount, "", "Deposit successful"⟩)
    | .WITHDRAW =>
      if r.amount ≤ acc.balance then
        some (⟨accounts1.set idx { acc with balance := acc.balance - r.amount }⟩,
          ⟨true, acc.balance - r.amount, "", "Withdrawal successful"⟩)
      else
        some (⟨accounts1⟩, ⟨false, 0, "", "Insufficient funds"⟩)
    | .BALANCE =>
      some (⟨accounts1⟩, ⟨true, acc.balance, "", "View balance successful"⟩)
    | .EARN_INTEREST =>
      let numThreads : Int := if 0 < r.amount then cppToInt r.amount else threadCount
      if numThreads = 0 ∧ accounts1 ≠ [] then none
      else if numThreads < 0 then none
      else
        some (⟨accounts1.map applyInterest⟩,
          ⟨true, 0, "", "Interest accrual successful"⟩)
    | _ => some (⟨accounts1⟩, ⟨false, 0, "", "Unknown RequestType"⟩)

/-! ### List access lemmas -/

theorem getD_set_self : ∀ (l : List Account) (i : Nat) (a d : Account),
    i < l.length → (l.set i a).getD i d = a := by
  intro l
  induction l with
  | nil => intro i a d h; simp at h
  | cons x xs ih =>
    intro i a d h
    cases i with
    | zero => rfl
    | succ j => exact ih j a d (by simpa using h)

theorem getD_set_ne : ∀ (l : List Account) (i j : Nat) (a d : Account),
    i ≠ j → (l.set i a).getD j d = l.getD j d := by
  intro l
  induction l with
  | nil => intro i j a d _; simp
  | cons x xs ih =>
    intro i j a d hij
    cases i with
    | zero =>
      cases j with
      | zero => exact absurd rfl hij
      | succ k => rfl
    | succ m =>
      cases j with
      | zero => rfl
      | succ k => exact ih m k a d (by omega)

theorem getD_of_le : ∀ (l : List Account) (i : Nat) (d : Account),
    l.length ≤ i → l.getD i d = d := by
  intro l
  induction l with
  | nil => intro i d _; cases i <;> rfl
  | cons x xs ih =>
    intro i d h
    cases i with
    | zero => simp at h
    | succ j => exact ih j d (by simpa using h)

theorem applyInterest_default : applyInterest Account.default = Account.default := rfl

theorem getD_map_applyInterest (l : List Account) (i : Nat) :
    (l.map applyInterest).getD i Account.default =
      applyInterest (l.getD i Account.default) := by
  induction l generalizing i with
  | nil => cases i <;> simp [applyInterest_default]
  | cons x xs ih =>
    cases i with
    | zero => rfl
    | succ j => exact ih j

/-! ## Claims C4, C5, C6: ledger operations -/

/-- C4: for every active account, a `Withdraw` of exactly the balance
succeeds with message "Withdrawal successful" and leaves the balance at 0,
while a `Withdraw` of strictly more than the balance produces `ok = false`
with message "Insufficient funds" and leaves the entire server state
untouched. -/
theorem claim_C4 (st : ServerState) (tc uid : Int) (fn dt : List Char)
    (h0 : 0 ≤ uid) (h1 : uid < (st.accounts.length : Int))
    (hact : (st.accounts.getD uid.toNat Account.default).active = true) :
    (processRequest st tc ⟨.WITHDRAW, uid,
        (st.accounts.getD uid.toNat Account.default).balance, fn, dt⟩ =
      some (⟨st.accounts.set uid.toNat
          { st.accounts.getD uid.toNat Account.default with balance := 0 }⟩,
        ⟨true, 0, "", "Withdrawal successful"⟩)) ∧
    (∀ amt : ℚ, (st.accounts.getD uid.toNat Account.default).balance < amt →
      processRequest st tc ⟨.WITHDRAW, uid, amt, fn, dt⟩ =
        some (st, ⟨false, 0, "", "Insufficient funds"⟩)) := by
  have hvalid : ¬ (uid < 0 ∨ (st.accounts.length : Int) ≤ uid) := by omega
  have hlazy : ¬ ((st.accounts.getD uid.toNat Account.default).active = false) := by
    simp only [hact]
    decide
  constructor
  · simp only [processRequest]
    rw [if_neg (by decide), if_neg hvalid]
    rw [if_neg hlazy, if_pos le_rfl, sub_self]
  · intro amt hamt
    simp only [processRequest]
    rw [if_neg (by decide), if_neg hvalid]
    rw [if_neg hlazy, if_neg (not_le.mpr hamt)]

/-- C4, witness: for the single active account 0 with balance 80, a
withdrawal of exactly 80 zeroes the balance and a withdrawal of 100 fails
with "Insufficient funds", leaving the state unchanged. -/
theorem claim_C4_witness :
    ((⟨[(⟨0, 80, true⟩ : Account)]⟩ : ServerState).accounts.getD 0
        Account.default).active = true ∧
    processRequest ⟨[⟨0, 80, true⟩]⟩ 4 ⟨.WITHDRAW, 0, 80, [], []⟩ =
      some (⟨[⟨0, 0, true⟩]⟩, ⟨true, 0, "", "Withdrawal successful"⟩) ∧
    processRequest ⟨[⟨0, 80, true⟩]⟩ 4 ⟨.WITHDRAW, 0, 100, [], []⟩ =
      some (⟨[⟨0, 80, true⟩]⟩, ⟨false, 0, "", "Insufficient funds"⟩) :=
  ⟨by decide,
   (claim_C4 ⟨[⟨0, 80, true⟩]⟩ 4 0 [] [] (by decide) (by decide) (by decide)).1,
   (claim_C4 ⟨[⟨0, 80, true⟩]⟩ 4 0 [] [] (by decide) (by decide) (by decide)).2
     100 (by decide)⟩

/-- C5, counterexample: two failures of the claim as stated.  (a) An
inactive account is not left untouched when it is the request's subject:
`handle_client` lazily creates it before dispatching, so it becomes
active even though the response reports success.  (b) For a request
amount in (0,1) no response with `ok=true` is produced at all: the
worker-count override `numThreads = (int)r.amount` truncates to 0, the
zero-worker pool never drains its task queue and `handle_client` blocks
forever in the pool destructor, applying no accrual. -/
theorem claim_C5_counterexample :
    (((⟨[Account.default]⟩ : ServerState).accounts.getD 0
        Account.default).active = false ∧
      processRequest ⟨[Account.default]⟩ 4 ⟨.EARN_INTEREST, 0, 3, [], []⟩ =
        some (⟨[⟨0, 0, true⟩]⟩,
          ⟨true, 0, "", "Interest accrual successful"⟩) ∧
      (⟨0, 0, true⟩ : Account) ≠ Account.default) ∧
    processRequest ⟨[(⟨0, 2, true⟩ : Account)]⟩ 4
      ⟨.EARN_INTEREST, 0, mkRat 1 2, [], []⟩ = none := by
  exact ⟨⟨by decide, by decide, by decide⟩, by decide⟩

/-- C5 (amended): for every `EarnInterest` request with a valid subject
id, write `numThreads` for the fan-out pool's worker count — the request
amount truncated to `int` when positive, else the server's
`thread_count`.  When `numThreads ≥ 1` a response with `ok = true` and
message "Interest accrual successful" is produced; every account that was
active with strictly positive balance has its balance multiplied by
exactly 1.01; every account other than the subject account that was
inactive or had balance at most 0 is left untouched; and the subject
account, when inactive, is first lazily created (activated with balance
0) before the accrual runs.  When `numThreads = 0` (e.g. any amount in
(0,1)) or `numThreads < 0`, no accrual completes and no response is ever
produced. -/
theorem claim_C5 (st : ServerState) (threadCount uid : Int) (amt : ℚ)
    (fn dt : List Char)
    (h0 : 0 ≤ uid) (h1 : uid < (st.accounts.length : Int)) :
    (1 ≤ (if 0 < amt then cppToInt amt else threadCount) →
      ∃ st' : ServerState,
        processRequest st threadCount ⟨.EARN_INTEREST, uid, amt, fn, dt⟩ =
          some (st', ⟨true, 0, "", "Interest accrual successful"⟩) ∧
        (∀ i : Nat, (st.accounts.getD i Account.default).active = true →
          0 < (st.accounts.getD i Account.default).balance →
          st'.accounts.getD i Account.default =
            { st.accounts.getD i Account.default with
              balance :=
                (st.accounts.getD i Account.default).balance * mkRat 101 100 }) ∧
        (∀ i : Nat, i ≠ uid.toNat →
          ¬ ((st.accounts.getD i Account.default).active = true ∧
             0 < (st.accounts.getD i Account.default).balance) →
          st'.accounts.getD i Account.default =
            st.accounts.getD i Account.default) ∧
        ((st.accounts.getD uid.toNat Account.default).active = false →
          st'.accounts.getD uid.toNat Account.default =
            Account.initAccount uid)) ∧
    ((if 0 < amt then cppToInt amt else threadCount) = 0 →
      processRequest st threadCount ⟨.EARN_INTEREST, uid, amt, fn, dt⟩ = none) ∧
    ((if 0 < amt then cppToInt amt else threadCount) < 0 →
      processRequest st threadCount ⟨.EARN_INTEREST, uid, amt, fn, dt⟩ = none) := by
  have hvalid : ¬ (uid < 0 ∨ (st.accounts.length : Int) ≤ uid) := by omega
  have hlt : uid.toNat < st.accounts.length := by omega
  refine ⟨?_, ?_, ?_⟩
  · intro hnt
    by_cases hact : (st.accounts.getD uid.toNat Account.default).active = false
    · refine ⟨⟨(st.accounts.set uid.toNat (Account.initAccount uid)).map applyInterest⟩,
        ?_, ?_, ?_, ?_⟩
      · simp only [processRequest]
        rw [if_neg (by decide), if_neg hvalid]
        rw [if_pos hact, if_neg (by rintro ⟨h, -⟩; omega), if_neg (by omega)]
      · intro i hia hib
        by_cases hi : i = uid.toNat
        · rw [hi] at hia
          rw [hia] at hact
          exact absurd hact (by simp)
        · dsimp only
          rw [getD_map_applyInterest, getD_set_ne _ _ _ _ _ (fun h => hi h.symm)]
          unfold applyInterest
          rw [if_neg (by simp only [hia]; decide), if_pos hib]
      · intro i hi hnot
        dsimp only
        rw [getD_map_applyInterest, getD_set_ne _ _ _ _ _ (fun h => hi h.symm)]
        unfold applyInterest
        push_neg at hnot
        by_cases hia : (st.accounts.getD i Account.default).active = false
        · rw [if_pos hia]
        · rw [if_neg hia,
            if_neg (by simp only [Bool.not_eq_false] at hia; exact not_lt.mpr (hnot hia))]
      · intro _
        dsimp only
        rw [getD_map_applyInterest, getD_set_self _ _ _ _ hlt]
        unfold applyInterest
        rw [if_neg (by simp [Account.initAccount]),
          if_neg (by simp [Account.initAccount])]
    · refine ⟨⟨st.accounts.map applyInterest⟩, ?_, ?_, ?_, ?_⟩
      · simp only [processRequest]
        rw [if_neg (by decide), if_neg hvalid]
        rw [if_neg hact, if_neg (by rintro ⟨h, -⟩; omega), if_neg (by omega)]
      · intro i hia hib
        dsimp only
        rw [getD_map_applyInterest]
        unfold applyInterest
        rw [if_neg (by simp only [hia]; decide), if_pos hib]
      · intro i _ hnot
        dsimp only
        rw [getD_map_applyInterest]
        unfold applyInterest
        push_neg at hnot
        by_cases hia : (st.accounts.getD i Account.default).active = false
        · rw [if_pos hia]
        · rw [if_neg hia,
            if_neg (by simp only [Bool.not_eq_false] at hia; exact not_lt.mpr (hnot hia))]
      · intro h
        exact absurd h hact
  · intro h0nt
    simp only [processRequest]
    rw [if_neg (by decide), if_neg hvalid]
    have hbase : (if (st.accounts.getD uid.toNat Account.default).active = false then
        st.accounts.set uid.toNat (Account.initAccount uid) else st.accounts) ≠ [] := by
      split
      · exact List.ne_nil_of_length_pos (by rw [List.length_set]; omega)
      · exact List.ne_nil_of_length_pos (by omega)
    rw [if_pos ⟨h0nt, hbase⟩]
  · intro hneg
    simp only [processRequest]
    rw [if_neg (by decide), if_neg hvalid]
    rw [if_neg (by rintro ⟨h, -⟩; omega), if_pos hneg]

/-- C5, witness: the amended claim applied to a one-account state holding
the active account 0 with balance 2 and pool size 4: amount 3 yields a
successful response with the balance multiplied by 1.01, while amount 1/2
truncates to a zero-worker pool and yields no response. -/
theorem claim_C5_witness :
    (∃ st' : ServerState,
      processRequest ⟨[(⟨0, 2, true⟩ : Account)]⟩ 4
          ⟨.EARN_INTEREST, 0, 3, [], []⟩ =
        some (st', ⟨true, 0, "", "Interest accrual successful"⟩) ∧
      st'.accounts.getD 0 Account.default = ⟨0, 2 * mkRat 101 100, true⟩) ∧
    processRequest ⟨[(⟨0, 2, true⟩ : Account)]⟩ 4
      ⟨.EARN_INTEREST, 0, mkRat 1 2, [], []⟩ = none := by
  constructor
  · obtain ⟨st', heq, hmul, -, -⟩ :=
      (claim_C5 ⟨[⟨0, 2, true⟩]⟩ 4 0 3 [] [] (by decide) (by decide)).1 (by decide)
    exact ⟨st', heq, by rw [hmul 0 (by decide) (by decide)]; rfl⟩
  · exact (claim_C5 ⟨[⟨0, 2, true⟩]⟩ 4 0 (mkRat 1 2) [] []
      (by decide) (by decide)).2.1 (by decide)

/-- C6: for every valid subject id whose account is not yet active, a
`Deposit(id, a)` lazily creates the account and returns `ok = true`,
balance `a`, message "Deposit successful"; and on an already active
account `Deposit` adds the amount unconditionally and returns the new
balance. -/
theorem claim_C6 (st : ServerState) (tc uid : Int) (a : ℚ) (fn dt : List Char)
    (h0 : 0 ≤ uid) (h1 : uid < (st.accounts.length : Int)) :
    ((st.accounts.getD uid.toNat Account.default).active = false →
      processRequest st tc ⟨.DEPOSIT, uid, a, fn, dt⟩ =
        some (⟨st.accounts.set uid.toNat ⟨uid, a, true⟩⟩,
          ⟨true, a, "", "Deposit successful"⟩)) ∧
    ((st.accounts.getD uid.toNat Account.default).active = true →
      processRequest st tc ⟨.DEPOSIT, uid, a, fn, dt⟩ =
        some (⟨st.accounts.set uid.toNat
            { st.accounts.getD uid.toNat Account.default with
              balance := (st.accounts.getD uid.toNat Account.default).balance + a }⟩,
          ⟨true, (st.accounts.getD uid.toNat Account.default).balance + a, "",
           "Deposit successful"⟩)) := by
  have hvalid : ¬ (uid < 0 ∨ (st.accounts.length : Int) ≤ uid) := by omega
  have hlt : uid.toNat < st.accounts.length := by omega
  constructor
  · intro hina
    simp only [processRequest]
    rw [if_neg (by decide), if_neg hvalid]
    rw [if_pos hina, getD_set_self _ _ _ _ hlt, List.set_set]
    simp only [Account.initAccount, zero_add]
  · intro hact
    simp only [processRequest]
    rw [if_neg (by decide), if_neg hvalid]
    rw [if_neg (by simp only [hact]; decide)]

/-- C6, witness: depositing 50 for the fresh (inactive) account 0 creates
it and answers `ok = true`, balance 50, "Deposit successful"; a further
deposit of 30 on the now-active account adds unconditionally. -/
theorem claim_C6_witness :
    ((⟨[Account.default]⟩ : ServerState).accounts.getD 0
        Account.default).active = false ∧
    processRequest ⟨[Account.default]⟩ 4 ⟨.DEPOSIT, 0, 50, [], []⟩ =
      some (⟨[⟨0, 50, true⟩]⟩, ⟨true, 50, "", "Deposit successful"⟩) ∧
    processRequest ⟨[(⟨0, 50, true⟩ : Account)]⟩ 4 ⟨.DEPOSIT, 0, 30, [], []⟩ =
      some (⟨[⟨0, (50 : ℚ) + 30, true⟩]⟩,
        ⟨true, (50 : ℚ) + 30, "", "Deposit successful"⟩) :=
  ⟨by decide,
   (claim_C6 ⟨[Account.default]⟩ 4 0 50 [] [] (by decide) (by decide)).1 (by decide),
   (claim_C6 ⟨[⟨0, 50, true⟩]⟩ 4 0 30 [] [] (by decide) (by decide)).2 (by decide)⟩

/-! ## Signal/timeout helper (`signals.h`) -/

/-- The signal-coordinator state visible to `execute_with_timeout`: the
`SignalHandling::timeout_occurred` flag and the pending alarm seconds
(`alarm(t)` arms, `alarm(0)` disarms). -/
structure SigState where
  timeout_occurred : Bool
  alarmSeconds : Nat
deriving DecidableEq

/-- `execute_with_timeout` from `signals.h`: clear the timeout flag, arm
the alarm, run the operation, call `alarm(0)`, and return
`result && !timeout_occurred`.  The operation is a state transformer that
may throw; `.error` carries the state at the throw, and the template has
no handler, so the exception propagates with `alarm(0)` skipped. -/
def execute_with_timeout (op : SigState → Except SigState (Bool × SigState))
    (timeout_seconds : Nat) (st : SigState) : Except SigState (Bool × SigState) :=
  let st1 : SigState := { st with timeout_occurred := false }
  let st2 : SigState := { st1 with alarmSeconds := timeout_seconds }
  match op st2 with
  | .error est => .error est
  | .ok (result, st3) =>
    let st4 : SigState := { st3 with alarmSeconds := 0 }
    .ok (result && !st4.timeout_occurred, st4)

/-- C7, counterexample: an operation that throws leaves the alarm armed
(5 seconds here), because `execute_with_timeout` reaches `alarm(0)` only
on the normal return path — contradicting the claim that the alarm is
disarmed on every exit path including a throwing one. -/
theorem claim_C7_counterexample :
    execute_with_timeout (fun st => .error st) 5 ⟨true, 0⟩ =
      .error ⟨false, 5⟩ ∧ (⟨false, 5⟩ : SigState).alarmSeconds ≠ 0 := by
  exact ⟨rfl, by decide⟩

/-- C7 (amended): `execute_with_timeout` arms the alarm before invoking
the operation (the operation runs in a state with the timeout flag
cleared and `alarmSeconds = t`); on every normal exit it disarms the
alarm and returns `true` iff the operation returned `true` and the
timeout flag was not set; when the operation exits by throwing, the
exception propagates and the alarm is not disarmed by the helper. -/
theorem claim_C7 (op : SigState → Except SigState (Bool × SigState))
    (t : Nat) (st : SigState) :
    ((⟨false, t⟩ : SigState).alarmSeconds = t) ∧
    (∀ (b : Bool) (st' : SigState), op ⟨false, t⟩ = .ok (b, st') →
      execute_with_timeout op t st =
        .ok (b && !st'.timeout_occurred, ⟨st'.timeout_occurred, 0⟩) ∧
      (⟨st'.timeout_occurred, 0⟩ : SigState).alarmSeconds = 0) ∧
    (∀ est : SigState, op ⟨false, t⟩ = .error est →
      execute_with_timeout op t st = .error est) := by
  refine ⟨rfl, ?_, ?_⟩
  · intro b st' hop
    refine ⟨?_, rfl⟩
    simp only [execute_with_timeout]
    rw [hop]
  · intro est hop
    simp only [execute_with_timeout]
    rw [hop]

/-- C7, witness: the amended claim applied to the operation that returns
`true` without touching the state: from `⟨true, 7⟩` the helper returns
`.ok (true, ⟨false, 0⟩)` — alarm disarmed, flag consumed. -/
theorem claim_C7_witness :
    execute_with_timeout (fun st => .ok (true, st)) 5 ⟨true, 7⟩ =
      .ok (true, ⟨false, 0⟩) :=
  ((claim_C7 (fun st => .ok (true, st)) 5 ⟨true, 7⟩).2.1 true ⟨false, 5⟩ rfl).1

/-! ## Client retry loop (`retry_operation`, client main) -/

/-- Outcome of one run of `retry_operation`: how many times the operation
closure was invoked, how many "Retry? (y/n)" prompts were read, and which
exit was taken (`succeeded` = operation returned true; `canceled` = the
user declined a retry, "Operation canceled"; `exhausted` = "Maximum retry
attempts reached" was printed). -/
structure RetryOutcome where
  invocations : Nat
  prompts : Nat
  succeeded : Bool
  canceled : Bool
  exhausted : Bool
deriving DecidableEq

/-- The `SignalHandling::shutdown_requested` flag as observed by the
successive reads inside `retry_operation`.  The flag is set once by the
`SIGINT` handler and never cleared, so the observation sequence is
monotone; it is modelled by an optional threshold `T`: the `i`-th read
yields `true` exactly when `T = some t` with `t ≤ i`. -/
def shutdownRead (T : Option Nat) (i : Nat) : Bool :=
  match T with
  | none => false
  | some t => decide (t ≤ i)

/-- The loop of `retry_operation` (client source, lines 42-71), with
`left = max_retries - retries` as the decreasing measure.  `results i` is
the value of the `i`-th invocation of `operation()`, `answers i` the
character typed at the `i`-th retry prompt, `rd` the index of the next
read of `shutdown_requested`.  The guard
`!success && retries < max_retries && !shutdown_requested` and the inner
`!success && !shutdown_requested` short-circuit, so the flag is read only
when the preceding conjuncts hold; loop exits whose final guard
evaluation is forced (after a success, after the exhaustion message —
`retries` has reached `max_retries` — and after a post-operation shutdown
observation, the flag being sticky) are inlined. -/
def retryAux (results : Nat → Bool) (answers : Nat → Char) (T : Option Nat) :
    Nat → Nat → Nat → Nat → RetryOutcome
  | 0, inv, pr, _rd => ⟨inv, pr, false, false, false⟩
  | left + 1, inv, pr, rd =>
    if shutdownRead T rd then ⟨inv, pr, false, false, false⟩
    else if results inv then ⟨inv + 1, pr, true, false, false⟩
    else if shutdownRead T (rd + 1) then ⟨inv + 1, pr, false, false, false⟩
    else if left = 0 then ⟨inv + 1, pr, false, false, true⟩
    else if (answers pr).toLower ≠ 'y' then ⟨inv + 1, pr + 1, false, true, false⟩
    else retryAux results answers T left (inv + 1) (pr + 1) (rd + 2)

/-- `retry_operation(operation_name, operation, max_retries)` from the
client source: the loop starting at `retries = 0`, `success = false`. -/
def retry_operation (results : Nat → Bool) (answers : Nat → Char)
    (T : Option Nat) (max_retries : Nat) : RetryOutcome :=
  retryAux results answers T max_retries 0 0 0

theorem retryAux_invocations_le (results : Nat → Bool) (answers : Nat → Char)
    (T : Option Nat) : ∀ left inv pr rd : Nat,
    (retryAux results answers T left inv pr rd).invocations ≤ inv + left := by
  intro left
  induction left with
  | zero => intro inv pr rd; exact Nat.le_add_right _ _
  | succ l ih =>
    intro inv pr rd
    simp only [retryAux]
    by_cases h1 : shutdownRead T rd
    · rw [if_pos h1]; dsimp only; omega
    · rw [if_neg h1]
      by_cases h2 : results inv
      · rw [if_pos h2]; dsimp only; omega
      · rw [if_neg h2]
        by_cases h3 : shutdownRead T (rd + 1)
        · rw [if_pos h3]; dsimp only; omega
        · rw [if_neg h3]
          by_cases h4 : l = 0
          · rw [if_pos h4]; dsimp only; omega
          · rw [if_neg h4]
            by_cases h5 : (answers pr).toLower ≠ 'y'
            · rw [if_pos h5]; dsimp only; omega
            · rw [if_neg h5]
              have := ih (inv + 1) (pr + 1) (rd + 2)
              omega

theorem retryAux_failures (results : Nat → Bool) (answers : Nat → Char)
    (T : Option Nat) : ∀ left inv pr rd k : Nat, inv ≤ k →
    k + 1 < (retryAux results answers T left inv pr rd).invocations →
    results k = false := by
  intro left
  induction left with
  | zero => intro inv pr rd k hk hlt; dsimp only [retryAux] at hlt; omega
  | succ l ih =>
    intro inv pr rd k hk hlt
    simp only [retryAux] at hlt
    by_cases h1 : shutdownRead T rd
    · rw [if_pos h1] at hlt; dsimp only at hlt; omega
    · rw [if_neg h1] at hlt
      by_cases h2 : results inv
      · rw [if_pos h2] at hlt; dsimp only at hlt; omega
      · rw [if_neg h2] at hlt
        by_cases h3 : shutdownRead T (rd + 1)
        · rw [if_pos h3] at hlt; dsimp only at hlt; omega
        · rw [if_neg h3] at hlt
          by_cases h4 : l = 0
          · rw [if_pos h4] at hlt; dsimp only at hlt; omega
          · rw [if_neg h4] at hlt
            by_cases h5 : (answers pr).toLower ≠ 'y'
            · rw [if_pos h5] at hlt; dsimp only at hlt; omega
            · rw [if_neg h5] at hlt
              by_cases hki : k = inv
              · subst hki
                exact Bool.not_eq_true _ ▸ eq_false_of_ne_true h2
              · exact ih (inv + 1) (pr + 1) (rd + 2) k (by omega) hlt

theorem retryAux_shutdown (results : Nat → Bool) (answers : Nat → Char)
    (T : Option Nat) : ∀ left inv pr rd : Nat, shutdownRead T rd = true →
    retryAux results answers T left inv pr rd = ⟨inv, pr, false, false, false⟩ := by
  intro left inv pr rd h
  cases left with
  | zero => rfl
  | succ l => rw [retryAux, if_pos h]

theorem retryAux_exhaustion (results : Nat → Bool) (answers : Nat → Char)
    (hres : ∀ i, results i = false) (hans : ∀ i, (answers i).toLower = 'y') :
    ∀ left inv pr rd : Nat, 0 < left →
    retryAux results answers none left inv pr rd =
      ⟨inv + left, pr + (left - 1), false, false, true⟩ := by
  intro left
  induction left with
  | zero => intro inv pr rd h; omega
  | succ l ih =>
    intro inv pr rd _
    rw [retryAux]
    rw [if_neg (by simp [shutdownRead]), if_neg (by simp [hres]),
      if_neg (by simp [shutdownRead])]
    cases l with
    | zero =>
      rw [if_pos rfl]
      congr 1
    | succ m =>
      rw [if_neg (by omega), if_neg (not_not_intro (hans pr)),
        ih (inv + 1) (pr + 1) (rd + 2) (by omega)]
      congr 1 <;> omega

/-- C8: `retry_operation` with maximum retry count N invokes the
operation at most N times; every invocation before the last returned
failure (so the loop stops as soon as an invocation succeeds); once a
read of the shutdown flag observes it set, the loop exits with no further
invocation and no further prompt; and when the flag stays clear, every
attempt fails and every prompt answers `y`, the loop reports exhaustion
after exactly the N-th failed attempt. -/
theorem claim_C8 (results : Nat → Bool) (answers : Nat → Char) (T : Option Nat)
    (max_retries : Nat) :
    ((retry_operation results answers T max_retries).invocations ≤ max_retries) ∧
    (∀ k : Nat, k + 1 < (retry_operation results answers T max_retries).invocations →
      results k = false) ∧
    (∀ left inv pr rd : Nat, shutdownRead T rd = true →
      retryAux results answers T left inv pr rd = ⟨inv, pr, false, false, false⟩) ∧
    (T = none → (∀ i, results i = false) → (∀ i, (answers i).toLower = 'y') →
      0 < max_retries →
      (retry_operation results answers T max_retries).exhausted = true ∧
      (retry_operation results answers T max_retries).invocations = max_retries) := by
  refine ⟨?_, ?_, ?_, ?_⟩
  · have := retryAux_invocations_le results answers T max_retries 0 0 0
    simpa [retry_operation] using this
  · intro k hk
    exact retryAux_failures results answers T max_retries 0 0 0 k (Nat.zero_le k) hk
  · exact retryAux_shutdown results answers T
  · intro hT hres hans hpos
    subst hT
    unfold retry_operation
    rw [retryAux_exhaustion results answers hres hans max_retries 0 0 0 hpos]
    exact ⟨rfl, by dsimp only; omega⟩

/-- C8, witness: the claim applied at max_retries = 3 with an
always-failing operation, `y` answers and no shutdown: three invocations
and an exhaustion report. -/
theorem claim_C8_witness :
    (retry_operation (fun _ => false) (fun _ => 'y') none 3).exhausted = true ∧
    (retry_operation (fun _ => false) (fun _ => 'y') none 3).invocations = 3 :=
  (claim_C8 (fun _ => false) (fun _ => 'y') none 3).2.2.2 rfl (fun _ => rfl)
    (fun _ => rfl) (by decide)

/-! ## Interactive client (client main source)

The client's `main` declares
`NetworkRequestChannel* finance_channel = nullptr;` (and likewise for
`logging_channel` and `file_channel`); the subsequent "Try to connect"
blocks contain only `cout` statements, construct no
`NetworkRequestChannel` and assign no pointer.  Each menu operation is a
closure run under `retry_operation`; the model below records every
request a closure transmits.  The network oracle `net` stands for the
server's response to a transmitted request (transport exceptions and
local file I/O failures are not modelled: they only change printed
messages and return values on paths that transmit the same or fewer
requests). -/

/-- A connected channel as the client names it: the server address. -/
structure Channel where
  host : String
  port : Int
deriving DecidableEq

/-- The client's three channel pointers; `none` models a null pointer. -/
structure ClientChannels where
  finance : Option Channel
  logging : Option Channel
  file : Option Channel
deriving DecidableEq

/-- The connection phase of the client's `main`: pointers start null and
the three connect blocks only print, so all three stay null. -/
def connectToServers : ClientChannels := ⟨none, none, none⟩

/-- What one invocation of a client operation closure did: its boolean
return value, the requests it transmitted in order, and whether it
printed a "Not connected to ... server!" message. -/
structure OpResult where
  success : Bool
  sends : List (Channel × Request)
  notConnected : Bool
deriving DecidableEq

/-- The audit write after a successful operation: one request to the
logging server when that channel is non-null, otherwise only
"Warning: Not connected to logging server". -/
def auditSend (chs : ClientChannels) (r : Request) : List (Channel × Request) :=
  match chs.logging with
  | none => []
  | some lc => [(lc, r)]

/-- `login_operation`: result plus the new `current_user` (already set
from input before the closure runs; reset to -1 only when the exchange
succeeds but the server answers failure). -/
def login_operation (net : Channel → Request → Response)
    (chs : ClientChannels) (uid : Int) : OpResult × Int :=
  match chs.logging with
  | none => (⟨false, [], true⟩, uid)
  | some lc =>
    let req : Request := ⟨.LOGIN, uid, 0, [], []⟩
    if (net lc req).success then (⟨true, [(lc, req)], false⟩, uid)
    else (⟨false, [(lc, req)], false⟩, -1)

/-- `deposit_operation`: needs the finance channel; on success also
audits to the logging server. -/
def deposit_operation (net : Channel → Request → Response)
    (chs : ClientChannels) (uid : Int) (amount : ℚ) : OpResult :=
  match chs.finance with
  | none => ⟨false, [], true⟩
  | some fc =>
    let txn : Request := ⟨.DEPOSIT, uid, amount, [], []⟩
    if (net fc txn).success then
      ⟨true, (fc, txn) :: auditSend chs ⟨.DEPOSIT, uid, amount, [], []⟩, false⟩
    else ⟨false, [(fc, txn)], false⟩

/-- `withdraw_operation`: same shape as deposit. -/
def withdraw_operation (net : Channel → Request → Response)
    (chs : ClientChannels) (uid : Int) (amount : ℚ) : OpResult :=
  match chs.finance with
  | none => ⟨false, [], true⟩
  | some fc =>
    let txn : Request := ⟨.WITHDRAW, uid, amount, [], []⟩
    if (net fc txn).success then
      ⟨true, (fc, txn) :: auditSend chs ⟨.WITHDRAW, uid, amount, [], []⟩, false⟩
    else ⟨false, [(fc, txn)], false⟩

/-- `balance_operation`: audits the returned balance on success. -/
def balance_operation (net : Channel → Request → Response)
    (chs : ClientChannels) (uid : Int) : OpResult :=
  match chs.finance with
  | none => ⟨false, [], true⟩
  | some fc =>
    let txn : Request := ⟨.BALANCE, uid, 0, [], []⟩
    let resp := net fc txn
    if resp.success then
      ⟨true, (fc, txn) :: auditSend chs ⟨.BALANCE, uid, resp.balance, [], []⟩, false⟩
    else ⟨false, [(fc, txn)], false⟩

/-- `upload_operation`: needs the file channel; the file content was read
locally before the closure runs. -/
def upload_operation (net : Channel → Request → Response)
    (chs : ClientChannels) (uid : Int) (filename content : List Char) : OpResult :=
  match chs.file with
  | none => ⟨false, [], true⟩
  | some fch =>
    let req : Request := ⟨.UPLOAD_FILE, uid, 0, filename, content⟩
    if (net fch req).success then
      ⟨true, (fch, req) :: auditSend chs ⟨.UPLOAD_FILE, uid, 0, filename, []⟩, false⟩
    else ⟨false, [(fch, req)], false⟩

/-- `download_operation`: needs the file channel; the local output-file
write is assumed to succeed (its failure changes only the return value,
not the transmitted requests beyond dropping the audit). -/
def download_operation (net : Channel → Request → Response)
    (chs : ClientChannels) (uid : Int) (filename : List Char) : OpResult :=
  match chs.file with
  | none => ⟨false, [], true⟩
  | some fch =>
    let req : Request := ⟨.DOWNLOAD_FILE, uid, 0, filename, []⟩
    if (net fch req).success then
      ⟨true, (fch, req) :: auditSend chs ⟨.DOWNLOAD_FILE, uid, 0, filename, []⟩, false⟩
    else ⟨false, [(fch, req)], false⟩

/-- `logout_operation`: with a null logging channel it prints
"Not connected to logging server!" but still logs out locally and
returns `true`; with a channel it sends `LOGOUT` and returns `true`. -/
def logout_operation (net : Channel → Request → Response)
    (chs : ClientChannels) (uid : Int) : OpResult :=
  match chs.logging with
  | none => ⟨true, [], true⟩
  | some lc =>
    let req : Request := ⟨.LOGOUT, uid, 0, [], []⟩
    let _ := net lc req
    ⟨true, [(lc, req)], false⟩

/-- `interest_operation` (menu choice 9): sends `EARN_INTEREST` with the
thread count as the amount; on success re-sends the same request to the
logging server as the audit record. -/
def interest_operation (net : Channel → Request → Response)
    (chs : ClientChannels) (uid : Int) (numThreads : Int) : OpResult :=
  match chs.finance with
  | none => ⟨false, [], true⟩
  | some fc =>
    let req : Request := ⟨.EARN_INTEREST, uid, (numThreads : ℚ), [], []⟩
    if (net fc req).success then
      ⟨true, (fc, req) :: auditSend chs req, false⟩
    else ⟨false, [(fc, req)], false⟩

/-- One user-selected menu action together with its typed inputs. -/
inductive MenuChoice where
  | exitChoice
  | login (uid : Int)
  | deposit (amount : ℚ)
  | withdraw (amount : ℚ)
  | balance
  | upload (filename content : List Char)
  | download (filename : List Char)
  | logout
  | status
  | interest (numThreads : Int)
  | invalid

/-- The requests transmitted by `n` invocations of the same deterministic
operation closure inside `retry_operation` (C8 bounds `n` by the retry
limit; every invocation transmits the same requests). -/
def repeatSends (sends : List (Channel × Request)) : Nat → List (Channel × Request)
  | 0 => []
  | n + 1 => sends ++ repeatSends sends n

/-- The client's menu loop: processes the script of menu choices, each
paired with the number of times the retry wrapper invoked its closure,
threading `current_user` (initially -1) and collecting every transmitted
request.  Choice 0 ends the loop; operations other than login are skipped
with "Please login first!" while `current_user = -1`; server status and
invalid choices transmit nothing. -/
def menuLoop (net : Channel → Request → Response) (chs : ClientChannels) :
    Int → List (MenuChoice × Nat) → List (Channel × Request)
  | _, [] => []
  | user, (c, tries) :: rest =>
    match c with
    | .exitChoice => []
    | .login uid =>
      if user ≠ -1 then menuLoop net chs user rest
      else
        let r := login_operation net chs uid
        repeatSends r.1.sends tries ++ menuLoop net chs r.2 rest
    | .deposit amount =>
      if user = -1 then menuLoop net chs user rest
      else repeatSends (deposit_operation net chs user amount).sends tries ++
        menuLoop net chs user rest
    | .withdraw amount =>
      if user = -1 then menuLoop net chs user rest
      else repeatSends (withdraw_operation net chs user amount).sends tries ++
        menuLoop net chs user rest
    | .balance =>
      if user = -1 then menuLoop net chs user rest
      else repeatSends (balance_operation net chs user).sends tries ++
        menuLoop net chs user rest
    | .upload filename content =>
      if user = -1 then menuLoop net chs user rest
      else repeatSends (upload_operation net chs user filename content).sends tries ++
        menuLoop net chs user rest
    | .download filename =>
      if user = -1 then menuLoop net chs user rest
      else repeatSends (download_operation net chs user filename).sends tries ++
        menuLoop net chs user rest
    | .logout =>
      if user = -1 then menuLoop net chs user rest
      else repeatSends (logout_operation net chs user).sends tries ++
        menuLoop net chs (-1) rest
    | .status => menuLoop net chs user rest
    | .interest numThreads =>
      if user = -1 then menuLoop net chs user rest
      else repeatSends (interest_operation net chs user numThreads).sends tries ++
        menuLoop net chs user rest
    | .invalid => menuLoop net chs user rest

/-- The shutdown phase of the client's `main`: `Request quit(QUIT)` is
sent to each non-null channel, finance then file then logging. -/
def quitSends (chs : ClientChannels) : List (Channel × Request) :=
  (match chs.finance with
   | some c => [(c, (⟨.QUIT, 0, 0, [], []⟩ : Request))]
   | none => []) ++
  (match chs.file with
   | some c => [(c, (⟨.QUIT, 0, 0, [], []⟩ : Request))]
   | none => []) ++
  (match chs.logging with
   | some c => [(c, (⟨.QUIT, 0, 0, [], []⟩ : Request))]
   | none => [])

/-- A complete client run: connect (which connects nothing), run the menu
script from `current_user = -1`, then send the shutdown QUITs; the result
is every request ever transmitted to any server. -/
def clientRun (net : Channel → Request → Response)
    (script : List (MenuChoice × Nat)) : List (Channel × Request) :=
  menuLoop net connectToServers (-1) script ++ quitSends connectToServers

theorem repeatSends_nil : ∀ n, repeatSends [] n = [] := by
  intro n
  induction n with
  | zero => rfl
  | succ m ih => simpa [repeatSends] using ih

/-- C9, counterexample: the claim says every menu operation that needs a
server fails; Logout needs the logging server and, with the null channel,
prints the "Not connected" message yet returns success (it logs out
locally). -/
theorem claim_C9_counterexample :
    (logout_operation (fun _ _ => ⟨false, 0, "", ""⟩) connectToServers 5).success
      = true ∧
    (logout_operation (fun _ _ => ⟨false, 0, "", ""⟩) connectToServers 5).notConnected
      = true := by
  exact ⟨rfl, rfl⟩

/-- C9 (amended): in every execution of the interactive client the three
channel pointers stay null, so no request is ever transmitted to any
server — in particular no Quit at exit — and every menu operation that
needs a server prints a "Not connected" message, transmits nothing and
returns failure, except Logout, which prints the message but still
succeeds by logging out locally. -/
theorem claim_C9 (net : Channel → Request → Response) :
    (∀ script : List (MenuChoice × Nat), clientRun net script = []) ∧
    (∀ uid : Int,
      login_operation net connectToServers uid = (⟨false, [], true⟩, uid)) ∧
    (∀ uid amount,
      deposit_operation net connectToServers uid amount = ⟨false, [], true⟩) ∧
    (∀ uid amount,
      withdraw_operation net connectToServers uid amount = ⟨false, [], true⟩) ∧
    (∀ uid, balance_operation net connectToServers uid = ⟨false, [], true⟩) ∧
    (∀ uid filename content,
      upload_operation net connectToServers uid filename content = ⟨false, [], true⟩) ∧
    (∀ uid filename,
      download_operation net connectToServers uid filename = ⟨false, [], true⟩) ∧
    (∀ uid numThreads,
      interest_operation net connectToServers uid numThreads = ⟨false, [], true⟩) ∧
    (∀ uid, logout_operation net connectToServers uid = ⟨true, [], true⟩) := by
  have hloop : ∀ (user : Int) (script : List (MenuChoice × Nat)),
      menuLoop net ⟨none, none, none⟩ user script = [] := by
    intro user script
    induction script generalizing user with
    | nil => rfl
    | cons step rest ih =>
      obtain ⟨c, tries⟩ := step
      cases c <;> simp only [menuLoop] <;>
        first
          | exact ih user
          | (split <;> simp [repeatSends_nil, ih, login_operation,
              deposit_operation, withdraw_operation, balance_operation,
              upload_operation, download_operation, logout_operation,
              interest_operation])
  refine ⟨?_, fun _ => rfl, fun _ _ => rfl, fun _ _ => rfl, fun _ => rfl,
    fun _ _ _ => rfl, fun _ _ => rfl, fun _ _ => rfl, fun _ => rfl⟩
  intro script
  simp only [clientRun, connectToServers, hloop, quitSends, List.nil_append]

/-- C9, witness: a concrete run — login as user 5, then three attempted
deposits of 50 — transmits no request at all. -/
theorem claim_C9_witness :
    clientRun (fun _ _ => ⟨false, 0, "", ""⟩)
      [(MenuChoice.login 5, 1), (MenuChoice.deposit 50, 3)] = [] :=
  (claim_C9 (fun _ _ => ⟨false, 0, "", ""⟩)).1
    [(MenuChoice.login 5, 1), (MenuChoice.deposit 50, 3)]

end BankSpec
